import Mathlib

/-!
# Verification of the segmentation-evaluation core

Shallow embedding of the label-fusion and segmentation-comparison core of
`src/Python/34_Segmentation_Evaluation.ipynb`.  The notebook itself is thin
glue around SimpleITK filters (`sitk.LabelVoting`, `sitk.STAPLE`,
`sitk.LabelOverlapMeasuresImageFilter`, `sitk.HausdorffDistanceImageFilter`,
`sitk.SignedMaurerDistanceMap`, `sitk.LabelContour`,
`sitk.LabelIntensityStatisticsImageFilter`); the filter implementations are
not part of this repository, so the algorithmic components are modelled from
the specification's component contracts (§4.1-§4.5 of the spec) and the
notebook's call sites.  Grids are flattened voxel lists with explicit size
and physical spacing; probabilities and metrics are exact rationals;
Euclidean surface distances are real numbers (square roots of rational
squared distances).
-/

namespace SegEval

/-- Modelled from the spec: `VoxelGrid<T>` (§3), a 3D array of scalar values
with size `(nx, ny, nz)` and physical spacing `(sx, sy, sz)`.  The voxel data
is stored flattened, x fastest, and its length must match the size. -/
structure VoxelGrid (α : Type) where
  nx : ℕ
  ny : ℕ
  nz : ℕ
  sx : ℚ
  sy : ℚ
  sz : ℚ
  data : List α
  hlen : data.length = nx * ny * nz

/-- The size triple of a grid. -/
def gridSize {α : Type} (g : VoxelGrid α) : ℕ × ℕ × ℕ := (g.nx, g.ny, g.nz)

/-- The physical spacing triple of a grid. -/
def gridSpacing {α : Type} (g : VoxelGrid α) : ℚ × ℚ × ℚ := (g.sx, g.sy, g.sz)

/-- Two grids share identical size and spacing (the RaterSet invariant of
spec §3). -/
def sameShape {α β : Type} (a : VoxelGrid α) (b : VoxelGrid β) : Prop :=
  gridSize a = gridSize b ∧ gridSpacing a = gridSpacing b

instance {α β : Type} (a : VoxelGrid α) (b : VoxelGrid β) :
    Decidable (sameShape a b) := by
  unfold sameShape; infer_instance

/-! ## Voxel-wise confusion counts (spec §4.4)

`TP` = both foreground, `FP` = candidate foreground only, `FN` = reference
foreground only, counted over positionally paired voxels. -/

/-- Number of voxels foreground in both grids. -/
def tpCount (ref cand : List Bool) : ℕ :=
  (List.zip ref cand).countP (fun rc => rc.1 && rc.2)

/-- Number of voxels foreground in the candidate only. -/
def fpCount (ref cand : List Bool) : ℕ :=
  (List.zip ref cand).countP (fun rc => !rc.1 && rc.2)

/-- Number of voxels foreground in the reference only. -/
def fnCount (ref cand : List Bool) : ℕ :=
  (List.zip ref cand).countP (fun rc => rc.1 && !rc.2)

/-! ## Overlap measures (spec §4.4, notebook cell 10)

Modelled from the spec: `OverlapEvaluator.evaluate` computes the five overlap
statistics of `sitk.LabelOverlapMeasuresImageFilter` from the confusion
counts.  Degenerate inputs take the documented fallback values instead of
NaN: Jaccard and Dice are `1` when both foregrounds are empty (perfect
agreement on emptiness, spec §4.4), the error fractions and volume
similarity are `0` when their denominators vanish (spec §7). -/

/-- Jaccard coefficient `TP / (TP+FP+FN)` from the confusion counts, with
degenerate value `1` when both volumes are empty. -/
def jaccardOf (t fp fn : ℕ) : ℚ :=
  if t + fp + fn = 0 then 1 else (t : ℚ) / ((t : ℚ) + (fp : ℚ) + (fn : ℚ))

/-- Dice coefficient `2·TP / (2·TP+FP+FN)` from the confusion counts, with
degenerate value `1` when both volumes are empty. -/
def diceOf (t fp fn : ℕ) : ℚ :=
  if 2 * t + fp + fn = 0 then 1
  else 2 * (t : ℚ) / (2 * (t : ℚ) + (fp : ℚ) + (fn : ℚ))

/-- False-negative error `FN / (TP+FN)`: fraction of true foreground missed;
`0` when the reference foreground is empty. -/
def falseNegativeErrorOf (t fn : ℕ) : ℚ :=
  if t + fn = 0 then 0 else (fn : ℚ) / ((t : ℚ) + (fn : ℚ))

/-- False-positive error `FP / (TP+FP)`: fraction of predicted foreground
that is wrong; `0` when the candidate foreground is empty. -/
def falsePositiveErrorOf (t fp : ℕ) : ℚ :=
  if t + fp = 0 then 0 else (fp : ℚ) / ((t : ℚ) + (fp : ℚ))

/-- Jaccard coefficient of two grids. -/
def jaccard (ref cand : VoxelGrid Bool) : ℚ :=
  jaccardOf (tpCount ref.data cand.data) (fpCount ref.data cand.data)
    (fnCount ref.data cand.data)

/-- Dice coefficient of two grids. -/
def dice (ref cand : VoxelGrid Bool) : ℚ :=
  diceOf (tpCount ref.data cand.data) (fpCount ref.data cand.data)
    (fnCount ref.data cand.data)

/-- Physical volume of one voxel. -/
def voxelVolume {α : Type} (g : VoxelGrid α) : ℚ := g.sx * g.sy * g.sz

/-- Number of foreground voxels of a binary grid. -/
def foregroundCount (g : VoxelGrid Bool) : ℕ := g.data.count true

/-- Physical foreground volume: voxel count times voxel physical volume. -/
def volume (g : VoxelGrid Bool) : ℚ := (foregroundCount g : ℚ) * voxelVolume g

/-- Volume similarity `2·(V_candidate − V_reference)/(V_candidate +
V_reference)` (spec §4.4), with degenerate value `0` when both physical
volumes vanish. -/
def volumeSimilarity (ref cand : VoxelGrid Bool) : ℚ :=
  if volume ref + volume cand = 0 then 0
  else 2 * (volume cand - volume ref) / (volume cand + volume ref)

/-- False-negative error of two grids. -/
def falseNegativeError (ref cand : VoxelGrid Bool) : ℚ :=
  falseNegativeErrorOf (tpCount ref.data cand.data) (fnCount ref.data cand.data)

/-- False-positive error of two grids. -/
def falsePositiveError (ref cand : VoxelGrid Bool) : ℚ :=
  falsePositiveErrorOf (tpCount ref.data cand.data) (fpCount ref.data cand.data)

/-- The ordered tuple of the five overlap scalars for one
(reference, candidate) pair (spec §3, `MetricRow`); field order follows the
notebook's `OverlapMeasures` enumeration. -/
structure MetricRow where
  jaccard : ℚ
  dice : ℚ
  volume_similarity : ℚ
  false_negative : ℚ
  false_positive : ℚ

/-- Modelled from the spec: `OverlapEvaluator.evaluate` (§4.4), the notebook's
`overlap_measures_filter.Execute` followed by the five getter calls. -/
def evaluate (ref cand : VoxelGrid Bool) : MetricRow :=
  { jaccard := jaccard ref cand
    dice := dice ref cand
    volume_similarity := volumeSimilarity ref cand
    false_negative := falseNegativeError ref cand
    false_positive := falsePositiveError ref cand }

/-! Concrete grids used as witnesses. -/

/-- A 2×1×1 grid with one foreground voxel. -/
def gridA : VoxelGrid Bool := ⟨2, 1, 1, 1, 1, 1, [true, false], rfl⟩

/-- A 2×1×1 grid with two foreground voxels. -/
def gridB : VoxelGrid Bool := ⟨2, 1, 1, 1, 1, 1, [true, true], rfl⟩

/-- A 1×1×1 grid with empty foreground. -/
def gridEmpty : VoxelGrid Bool := ⟨1, 1, 1, 1, 1, 1, [false], rfl⟩

/-! ## Majority voting (spec §4.1, notebook cell 7)

The notebook obtains its consensus with
`sitk.LabelVoting(segmentations, labelForUndecidedPixels)`; the filter is
not part of the repository, so it is modelled from the spec's
`MajorityVoter.vote` contract. -/

/-- The maximum vote count attained by any label at one voxel. -/
def maxVotes (labels : List ℤ) : ℕ :=
  (labels.map (fun l => labels.count l)).foldr max 0

/-- The distinct labels attaining the maximum vote count at one voxel. -/
def winners (labels : List ℤ) : List ℤ :=
  labels.dedup.filter (fun l => labels.count l = maxVotes labels)

/-- Modelled from the spec: the per-voxel majority vote of §4.1.  The
winning label is the one with strictly the most votes; if two or more
labels tie for the maximum count, the caller-supplied `undecided` label is
assigned. -/
def voteVoxel (labels : List ℤ) (undecided : ℤ) : ℤ :=
  match winners labels with
  | [l] => l
  | _ => undecided

/-- Number of voxels of a rater set, read off the first rater's grid. -/
def numVoxels (grids : List (List ℤ)) : ℕ := (grids.headD []).length

/-- The column of the labels contributed by each rater at voxel `v`. -/
def raterColumn (grids : List (List ℤ)) (v : ℕ) : List ℤ :=
  grids.map (fun g => g.getD v 0)

/-- Modelled from the spec: `MajorityVoter.vote` (§4.1), the notebook's
`sitk.LabelVoting(segmentations, labelForUndecidedPixels)`: a single pass
assigning each voxel the per-voxel majority vote of the rater labels. -/
def vote (grids : List (List ℤ)) (undecided : ℤ) : List ℤ :=
  (List.range (numVoxels grids)).map
    (fun v => voteVoxel (raterColumn grids v) undecided)

/-- A three-rater set over a single voxel whose column `[1, 1, 2]` has the
strict winner `1`. -/
def voteGrids : List (List ℤ) := [[1], [1], [2]]

/-- A two-rater set over a single voxel whose column `[1, 2]` is a tie. -/
def tieGrids : List (List ℤ) := [[1], [2]]

/-! ## Thresholding a probability grid (notebook cell 8)

The notebook's `foregroundValue = 1`, `threshold = 0.95` and
`reference_segmentation_STAPLE = reference_segmentation_STAPLE_probabilities
> threshold`. -/

/-- The notebook's `foregroundValue`. -/
def foregroundValue : ℤ := 1

/-- The notebook's `threshold`. -/
def threshold : ℚ := 95 / 100

/-- The notebook's overloaded `>` on a probability image and a scalar
(SimpleITK's voxelwise `Greater` filter): each voxel becomes foreground
exactly when its probability is strictly greater than `t`. -/
def gtThreshold (probs : List ℚ) (t : ℚ) : List Bool :=
  probs.map (fun x => decide (t < x))

/-- A concrete probability grid whose middle voxel sits exactly at the
0.95 threshold. -/
def probsAtThreshold : List ℚ := [9 / 10, 95 / 100, 96 / 100]

/-! ## STAPLE (spec §4.2, notebook cell 8)

The notebook's `sitk.STAPLE(segmentations, foregroundValue)` is not part of
the repository; the estimator is modelled from the spec's
`StapleEstimator.estimate` contract: binarize each rater grid against the
foreground label, then iterate E- and M-steps from a 0.99/0.99
initialization, with the per-voxel posterior grid as output.  The spec
leaves the global foreground prior and the probability clamp width open;
they are fixed here as `1/2` and `ε = 1/1000`. -/

/-- Probability clamp width `ε` (spec §4.2: guard against sensitivities and
specificities reaching exactly 0 or 1). -/
def epsSTAPLE : ℚ := 1 / 1000

/-- Clamp a probability into `[ε, 1−ε]` (spec §4.2). -/
def clampProb (x : ℚ) : ℚ := max epsSTAPLE (min (1 - epsSTAPLE) x)

/-- Global foreground prior `a_v` (spec §4.2 assumes a global prior; its
value is not fixed by the spec and is taken uninformative). -/
def priorFG : ℚ := 1 / 2

/-- E-step posterior foreground probability at one voxel (spec §4.2):
`d` is the column of rater decisions, `p` the sensitivities, `q` the
specificities; the foreground and background terms are normalized to sum
to one. -/
def voxelPosterior (d : List Bool) (p q : List ℚ) : ℚ :=
  (priorFG * ((d.zip p).map (fun dp => if dp.1 then dp.2 else 1 - dp.2)).prod) /
    (priorFG * ((d.zip p).map (fun dp => if dp.1 then dp.2 else 1 - dp.2)).prod +
     (1 - priorFG) *
       ((d.zip q).map (fun dq => if dq.1 then 1 - dq.2 else dq.2)).prod)

/-- The column of all raters' binary decisions at voxel `v`. -/
def boolColumn (grids : List (List Bool)) (v : ℕ) : List Bool :=
  grids.map (fun g => g.getD v false)

/-- Number of voxels of a binarized rater set. -/
def numVoxelsB (grids : List (List Bool)) : ℕ := (grids.headD []).length

/-- E-step (spec §4.2): the posterior foreground probability of every
voxel. -/
def eStep (grids : List (List Bool)) (p q : List ℚ) : List ℚ :=
  (List.range (numVoxelsB grids)).map
    (fun v => voxelPosterior (boolColumn grids v) p q)

/-- Sensitivity update `p_j = Σ_v W_v·D_jv / Σ_v W_v` (spec §4.2). -/
def updateP (g : List Bool) (w : List ℚ) : ℚ :=
  ((g.zip w).map (fun dw => if dw.1 then dw.2 else 0)).sum / w.sum

/-- Specificity update `q_j = Σ_v (1−W_v)·(1−D_jv) / Σ_v (1−W_v)`
(spec §4.2). -/
def updateQ (g : List Bool) (w : List ℚ) : ℚ :=
  ((g.zip w).map (fun dw => if dw.1 then 0 else 1 - dw.2)).sum /
    (w.map (fun x => 1 - x)).sum

/-- M-step (spec §4.2): re-estimate every rater's sensitivity and
specificity from the posterior grid, clamping into `[ε, 1−ε]`. -/
def mStep (grids : List (List Bool)) (w : List ℚ) : List ℚ × List ℚ :=
  (grids.map (fun g => clampProb (updateP g w)),
   grids.map (fun g => clampProb (updateQ g w)))

/-- Maximum absolute change of any sensitivity or specificity across one
iteration (spec §4.2 convergence test). -/
def maxChange (p q p' q' : List ℚ) : ℚ :=
  (((p.zip p').map (fun x => |x.1 - x.2|)) ++
   ((q.zip q').map (fun x => |x.1 - x.2|))).foldr max 0

/-- The EM loop (spec §4.2): compute the E-step posterior, update the
parameters, stop early when the maximum parameter change falls below the
tolerance or when the iteration budget is exhausted; the output is the last
computed posterior grid. -/
def stapleLoop (grids : List (List Bool)) (tol : ℚ) :
    ℕ → List ℚ × List ℚ → List ℚ
  | 0, pq => eStep grids pq.1 pq.2
  | k + 1, pq =>
    if maxChange pq.1 pq.2 (mStep grids (eStep grids pq.1 pq.2)).1
        (mStep grids (eStep grids pq.1 pq.2)).2 < tol then
      eStep grids pq.1 pq.2
    else stapleLoop grids tol k (mStep grids (eStep grids pq.1 pq.2))

/-- Initial sensitivity/specificity estimate (spec §4.2 suggests 0.99). -/
def initPQ : ℚ := 99 / 100

/-- Modelled from the spec: `StapleEstimator.estimate` (§4.2), the
notebook's `sitk.STAPLE(segmentations, foregroundValue)`: binarize each
rater grid against the foreground label and run the EM loop. -/
def estimate (grids : List (List ℤ)) (fg : ℤ) (maxIterations : ℕ)
    (tol : ℚ) : List ℚ :=
  stapleLoop (grids.map (fun g => g.map (fun x => decide (x = fg)))) tol
    maxIterations
    (List.replicate grids.length initPQ, List.replicate grids.length initPQ)

/-- The E-step posterior at a voxel on which all `n` raters say foreground,
when all sensitivities are `pv` and all specificities are `qv`. -/
def wFG (pv qv : ℚ) (n : ℕ) : ℚ :=
  (priorFG * pv ^ n) /
    (priorFG * pv ^ n + (1 - priorFG) * (1 - qv) ^ n)

/-- The E-step posterior at a voxel on which all `n` raters say background,
when all sensitivities are `pv` and all specificities are `qv`. -/
def wBG (pv qv : ℚ) (n : ℕ) : ℚ :=
  (priorFG * (1 - pv) ^ n) /
    (priorFG * (1 - pv) ^ n + (1 - priorFG) * qv ^ n)

/-! ## Shape checking (spec §7)

Mismatched grid shape or spacing among rater-set members must fail with a
ShapeMismatch error before any computation begins.  Modelled from the spec:
fallible wrappers of the three operations returning `Except`. -/

/-- The fatal error of spec §7. -/
inductive FusionError where
  | ShapeMismatch
deriving DecidableEq

/-- Every member shares the first member's size and spacing. -/
def sameShapeAll {α : Type} (grids : List (VoxelGrid α)) : Bool :=
  match grids with
  | [] => true
  | g :: rest => rest.all (fun x => decide (sameShape x g))

/-- Modelled from the spec: majority vote at the RaterSet level with the §7
shape check performed before any computation. -/
def checkedVote (grids : List (VoxelGrid ℤ)) (u : ℤ) :
    Except FusionError (List ℤ) :=
  if sameShapeAll grids then .ok (vote (grids.map VoxelGrid.data) u)
  else .error .ShapeMismatch

/-- Modelled from the spec: STAPLE estimation at the RaterSet level with the
§7 shape check performed before any computation. -/
def checkedStaple (grids : List (VoxelGrid ℤ)) (fg : ℤ)
    (maxIterations : ℕ) (tol : ℚ) : Except FusionError (List ℚ) :=
  if sameShapeAll grids then
    .ok (estimate (grids.map VoxelGrid.data) fg maxIterations tol)
  else .error .ShapeMismatch

/-- Modelled from the spec: overlap evaluation with the §7 shape check
performed before any computation. -/
def checkedEvaluate (ref cand : VoxelGrid Bool) :
    Except FusionError MetricRow :=
  if sameShape ref cand then .ok (evaluate ref cand)
  else .error .ShapeMismatch

/-! ## Geometry: voxel positions, distances, boundaries -/

/-- The x index of flattened voxel `v` (x fastest). -/
def xOf {α : Type} (g : VoxelGrid α) (v : ℕ) : ℕ := v % g.nx

/-- The y index of flattened voxel `v`. -/
def yOf {α : Type} (g : VoxelGrid α) (v : ℕ) : ℕ := (v / g.nx) % g.ny

/-- The z index of flattened voxel `v`. -/
def zOf {α : Type} (g : VoxelGrid α) (v : ℕ) : ℕ := v / (g.nx * g.ny)

/-- Physical position of a voxel: index times spacing per axis. -/
def posOf {α : Type} (g : VoxelGrid α) (v : ℕ) : ℚ × ℚ × ℚ :=
  ((xOf g v : ℚ) * g.sx, (yOf g v : ℚ) * g.sy, (zOf g v : ℚ) * g.sz)

/-- Squared Euclidean distance of two physical points. -/
def sqDist (p q : ℚ × ℚ × ℚ) : ℚ :=
  (p.1 - q.1) ^ 2 + (p.2.1 - q.2.1) ^ 2 + (p.2.2 - q.2.2) ^ 2

/-- Fold of `min` over a list from an initial value. -/
def foldMin {α : Type} [LinearOrder α] (l : List α) (init : α) : α :=
  l.foldl min init

/-- Fold of `max` over a list from an initial value. -/
def foldMax {α : Type} [LinearOrder α] (l : List α) (init : α) : α :=
  l.foldl max init

/-- Minimum of a list, or `d` when the list is empty. -/
def minOr {α : Type} [LinearOrder α] (d : α) : List α → α
  | [] => d
  | x :: xs => foldMin xs x

/-- Maximum of a list, or `d` when the list is empty. -/
def maxOr {α : Type} [LinearOrder α] (d : α) : List α → α
  | [] => d
  | x :: xs => foldMax xs x

/-- The value of the voxel at integer coordinates, background outside the
grid. -/
def valAt (g : VoxelGrid Bool) (x y z : ℕ) : Bool :=
  if x < g.nx ∧ y < g.ny ∧ z < g.nz then
    g.data.getD (x + g.nx * (y + g.ny * z)) false
  else false

/-- Modelled from the spec: the contour test of §4.5 with 6-connectivity
(the documented fixed choice, matching `sitk.LabelContour` with face
connectivity): a foreground voxel having at least one in-grid
face-adjacent background voxel. -/
def isBoundary (g : VoxelGrid Bool) (v : ℕ) : Bool :=
  valAt g (xOf g v) (yOf g v) (zOf g v) &&
    ((decide (0 < xOf g v) && !valAt g (xOf g v - 1) (yOf g v) (zOf g v)) ||
     (decide (xOf g v + 1 < g.nx) && !valAt g (xOf g v + 1) (yOf g v) (zOf g v)) ||
     (decide (0 < yOf g v) && !valAt g (xOf g v) (yOf g v - 1) (zOf g v)) ||
     (decide (yOf g v + 1 < g.ny) && !valAt g (xOf g v) (yOf g v + 1) (zOf g v)) ||
     (decide (0 < zOf g v) && !valAt g (xOf g v) (yOf g v) (zOf g v - 1)) ||
     (decide (zOf g v + 1 < g.nz) && !valAt g (xOf g v) (yOf g v) (zOf g v + 1)))

/-- The flattened indices of the boundary voxels of a grid. -/
def boundaryIndices (g : VoxelGrid Bool) : List ℕ :=
  (List.range (g.nx * g.ny * g.nz)).filter (fun v => isBoundary g v)

/-- Physical Euclidean distance between voxel `v` of grid `a` and voxel `w`
of grid `b`. -/
noncomputable def realDist {α β : Type} (a : VoxelGrid α) (b : VoxelGrid β)
    (v w : ℕ) : ℝ :=
  Real.sqrt ((sqDist (posOf a v) (posOf b w) : ℚ) : ℝ)

/-- Directed Hausdorff distance (spec §4.5): the maximum over one grid's
boundary voxels of the minimum distance to the other grid's boundary. -/
noncomputable def directedHausdorff (a b : VoxelGrid Bool) : ℝ :=
  maxOr 0 ((boundaryIndices a).map
    (fun v => minOr 0 ((boundaryIndices b).map (fun w => realDist a b v w))))

/-- Modelled from the spec: the symmetric Hausdorff distance of §4.5, the
notebook's `hausdorff_distance_filter.GetHausdorffDistance()`. -/
noncomputable def hausdorffDistance (a b : VoxelGrid Bool) : ℝ :=
  max (directedHausdorff a b) (directedHausdorff b a)

/-! ## Distance transform and surface-distance statistics
(spec §4.3, §4.5; notebook cell 10) -/

/-- Modelled from the spec: `DistanceTransform` (§4.3) by the
correctness-acceptable brute force: the squared physical distance from
voxel `v` to the nearest voxel of the opposite binary class (`0` when no
opposite-class voxel exists). -/
def minOppSq (g : VoxelGrid Bool) (v : ℕ) : ℚ :=
  minOr 0 (((List.range (g.nx * g.ny * g.nz)).filter
      (fun w => g.data.getD w false ≠ g.data.getD v false)).map
    (fun w => sqDist (posOf g v) (posOf g w)))

/-- The signed Maurer distance map of the notebook
(`sitk.SignedMaurerDistanceMap(reference_segmentation,
squaredDistance=False)`): negative inside the object, positive outside. -/
noncomputable def signedMaurer (g : VoxelGrid Bool) (v : ℕ) : ℝ :=
  (if g.data.getD v false then (-1 : ℝ) else 1) *
    Real.sqrt ((minOppSq g v : ℚ) : ℝ)

/-- The notebook's `reference_distance_map =
sitk.Abs(sitk.SignedMaurerDistanceMap(...))`. -/
noncomputable def referenceDistanceMap (g : VoxelGrid Bool) (v : ℕ) : ℝ :=
  |signedMaurer g v|

/-- The multiset of reference-distance-map samples at every boundary voxel
of the candidate (spec §4.5; the notebook's
`label_intensity_statistics_filter.Execute(segmented_surface,
reference_distance_map)`). -/
noncomputable def surfaceSamples (ref cand : VoxelGrid Bool) : List ℝ :=
  (boundaryIndices cand).map (fun v => referenceDistanceMap ref v)

/-- The four sample statistics returned by the surface-distance evaluator. -/
structure SurfaceRow where
  mean : ℝ
  median : ℝ
  std : ℝ
  maxv : ℝ

/-- Modelled from the spec: `SurfaceDistanceEvaluator.evaluate` (§4.5), the
notebook's `GetMean/GetMedian/GetStandardDeviation/GetMaximum` calls on the
label-intensity statistics of the contour against the reference distance
map.  Mean and standard deviation use the running-moment formulas, the
median is the lower middle element of the sorted samples, the maximum is a
fold. -/
noncomputable def surfaceDistanceEval (ref cand : VoxelGrid Bool) : SurfaceRow :=
  { mean := (surfaceSamples ref cand).sum / (surfaceSamples ref cand).length
    median := ((surfaceSamples ref cand).insertionSort (· ≤ ·)).getD
      (((surfaceSamples ref cand).length - 1) / 2) 0
    std := Real.sqrt
      (((surfaceSamples ref cand).map (fun x => x ^ 2)).sum /
          (surfaceSamples ref cand).length -
        ((surfaceSamples ref cand).sum / (surfaceSamples ref cand).length) ^ 2)
    maxv := maxOr 0 (surfaceSamples ref cand) }

/-- Mean of a multiset of reals. -/
noncomputable def multisetMean (s : Multiset ℝ) : ℝ := s.sum / s.card

/-- Population variance of a multiset of reals. -/
noncomputable def multisetVariance (s : Multiset ℝ) : ℝ :=
  ((s.map (fun x => (x - multisetMean s) ^ 2)).sum) / s.card

/-- Standard deviation of a multiset of reals. -/
noncomputable def multisetStd (s : Multiset ℝ) : ℝ := Real.sqrt (multisetVariance s)

/-- Lower median of a multiset of reals: the middle element of its sorted
enumeration. -/
noncomputable def multisetMedian (s : Multiset ℝ) : ℝ :=
  (s.sort (· ≤ ·)).getD ((s.card - 1) / 2) 0

/-- An integer-labelled 2×1×1 grid. -/
def gridZa : VoxelGrid ℤ := ⟨2, 1, 1, 1, 1, 1, [1, 0], rfl⟩

/-- An integer-labelled 1×1×1 grid, shape-mismatched with `gridZa`. -/
def gridZb : VoxelGrid ℤ := ⟨1, 1, 1, 1, 1, 1, [1], rfl⟩

/-- A rater set whose members do not all share the same shape. -/
def mismatchSet : List (VoxelGrid ℤ) := [gridZa, gridZb]

/-! ## Lemmas about confusion counts -/

lemma tpCount_le_count (r c : List Bool) : tpCount r c ≤ r.count true := by
  induction r generalizing c with
  | nil => simp [tpCount]
  | cons a r ih =>
    cases c with
    | nil => simp [tpCount]
    | cons b c =>
      have h := ih c
      simp only [tpCount, List.zip_cons_cons, List.countP_cons, List.count_cons] at *
      by_cases ha : a <;> by_cases hb : b <;> simp [ha, hb] <;> omega

lemma fpCount_le_count (r c : List Bool) : fpCount r c ≤ c.count true := by
  induction r generalizing c with
  | nil => simp [fpCount]
  | cons a r ih =>
    cases c with
    | nil => simp [fpCount]
    | cons b c =>
      have h := ih c
      simp only [fpCount, List.zip_cons_cons, List.countP_cons, List.count_cons] at *
      by_cases ha : a <;> by_cases hb : b <;> simp [ha, hb] <;> omega

lemma fnCount_le_count (r c : List Bool) : fnCount r c ≤ r.count true := by
  induction r generalizing c with
  | nil => simp [fnCount]
  | cons a r ih =>
    cases c with
    | nil => simp [fnCount]
    | cons b c =>
      have h := ih c
      simp only [fnCount, List.zip_cons_cons, List.countP_cons, List.count_cons] at *
      by_cases ha : a <;> by_cases hb : b <;> simp [ha, hb] <;> omega

/-! ## Lemmas about majority voting -/

lemma le_foldr_max (l : List ℕ) (x : ℕ) (hx : x ∈ l) : x ≤ l.foldr max 0 := by
  induction l with
  | nil => cases hx
  | cons a t ih =>
    rcases List.mem_cons.mp hx with h | h
    · subst h; exact le_max_left _ _
    · exact le_trans (ih h) (le_max_right _ _)

lemma foldr_max_le (l : List ℕ) (c : ℕ) (h : ∀ x ∈ l, x ≤ c) :
    l.foldr max 0 ≤ c := by
  induction l with
  | nil => exact Nat.zero_le c
  | cons a t ih =>
    exact max_le (h a (List.mem_cons_self a t))
      (ih (fun x hx => h x (List.mem_cons_of_mem a hx)))

lemma count_le_maxVotes (labels : List ℤ) (l : ℤ) (hl : l ∈ labels) :
    labels.count l ≤ maxVotes labels :=
  le_foldr_max _ _ (List.mem_map.mpr ⟨l, hl, rfl⟩)

lemma maxVotes_eq_of_strict (labels : List ℤ) (l : ℤ) (hl : l ∈ labels)
    (hstrict : ∀ l' ∈ labels, l' ≠ l → labels.count l' < labels.count l) :
    maxVotes labels = labels.count l := by
  refine le_antisymm ?_ (count_le_maxVotes labels l hl)
  refine foldr_max_le _ _ ?_
  intro x hx
  rcases List.mem_map.mp hx with ⟨l', hl', rfl⟩
  by_cases h : l' = l
  · subst h; exact le_refl _
  · exact le_of_lt (hstrict l' hl' h)

lemma filter_eq_single {α : Type} [DecidableEq α] (L : List α) (p : α → Bool)
    (a : α) (hnd : L.Nodup) (ha : a ∈ L)
    (hp : ∀ x ∈ L, p x = true ↔ x = a) : L.filter p = [a] := by
  induction L with
  | nil => cases ha
  | cons b T ih =>
    rcases List.nodup_cons.mp hnd with ⟨hbT, hndT⟩
    rcases List.mem_cons.mp ha with hab | haT
    · subst hab
      have hpb : p a = true := (hp a (List.mem_cons_self a T)).mpr rfl
      rw [List.filter_cons_of_pos hpb]
      have : T.filter p = [] := by
        refine List.filter_eq_nil.mpr ?_
        intro x hx
        intro hpx
        have := (hp x (List.mem_cons_of_mem a hx)).mp hpx
        subst this
        exact hbT hx
      rw [this]
    · have hba : b ≠ a := fun h => hbT (h ▸ haT)
      have hpb : p b = false := by
        rcases Bool.eq_false_or_eq_true (p b) with h | h
        · exact absurd ((hp b (List.mem_cons_self b T)).mp h) hba
        · exact h
      rw [List.filter_cons_of_neg (by simp [hpb])]
      exact ih hndT haT
        (fun x hx => hp x (List.mem_cons_of_mem b hx))

lemma mem_winners (labels : List ℤ) (l : ℤ) (hl : l ∈ labels)
    (hmax : labels.count l = maxVotes labels) : l ∈ winners labels := by
  unfold winners
  refine List.mem_filter.mpr ⟨List.mem_dedup.mpr hl, ?_⟩
  simp [hmax]

lemma vote_getD (grids : List (List ℤ)) (u : ℤ) (v : ℕ)
    (hv : v < numVoxels grids) :
    (vote grids u).getD v u = voteVoxel (raterColumn grids v) u := by
  have hlen : v < (vote grids u).length := by
    simpa [vote] using hv
  rw [List.getD_eq_getElem _ _ hlen]
  simp [vote]

/-! ## Algebra of the overlap coefficients -/

lemma jaccardOf_diceOf_props (t fp fn : ℕ) :
    0 ≤ jaccardOf t fp fn ∧ jaccardOf t fp fn ≤ 1 ∧
    0 ≤ diceOf t fp fn ∧ diceOf t fp fn ≤ 1 ∧
    jaccardOf t fp fn ≤ diceOf t fp fn ∧
    diceOf t fp fn = 2 * jaccardOf t fp fn / (1 + jaccardOf t fp fn) := by
  unfold jaccardOf diceOf
  rcases Nat.eq_zero_or_pos (t + fp + fn) with h0 | hpos
  · have ht : t = 0 := by omega
    have hf : fp = 0 := by omega
    have hn : fn = 0 := by omega
    subst ht hf hn
    norm_num
  · have h1 : t + fp + fn ≠ 0 := by omega
    have h2 : 2 * t + fp + fn ≠ 0 := by omega
    rw [if_neg h1, if_neg h2]
    have ht0 : (0 : ℚ) ≤ (t : ℚ) := Nat.cast_nonneg t
    have hf0 : (0 : ℚ) ≤ (fp : ℚ) := Nat.cast_nonneg fp
    have hn0 : (0 : ℚ) ≤ (fn : ℚ) := Nat.cast_nonneg fn
    have hD : (0 : ℚ) < (t : ℚ) + (fp : ℚ) + (fn : ℚ) := by exact_mod_cast hpos
    have hD2 : (0 : ℚ) < 2 * (t : ℚ) + (fp : ℚ) + (fn : ℚ) := by linarith
    refine ⟨by positivity, ?_, by positivity, ?_, ?_, ?_⟩
    · rw [div_le_one hD]; linarith
    · rw [div_le_one hD2]; linarith
    · rw [div_le_div_iff hD hD2]; nlinarith
    · have h1J : (0 : ℚ) < 1 + (t : ℚ) / ((t : ℚ) + (fp : ℚ) + (fn : ℚ)) := by
        positivity
      rw [div_eq_div_iff hD2.ne' h1J.ne']
      field_simp
      exact Or.inl (by ring)

end SegEval

namespace SegEval

/-!
## Theorems settling the claims
-/

/-- C2: for every pair of same-shape binary grids, the Dice and Jaccard
values returned by `evaluate` both lie in `[0,1]`, `Dice ≥ Jaccard`, and
`Dice = 2·Jaccard/(1+Jaccard)`. -/
theorem dice_jaccard_bounds_relation (ref cand : VoxelGrid Bool)
    (h : sameShape ref cand) :
    0 ≤ (evaluate ref cand).jaccard ∧ (evaluate ref cand).jaccard ≤ 1 ∧
    0 ≤ (evaluate ref cand).dice ∧ (evaluate ref cand).dice ≤ 1 ∧
    (evaluate ref cand).jaccard ≤ (evaluate ref cand).dice ∧
    (evaluate ref cand).dice =
      2 * (evaluate ref cand).jaccard / (1 + (evaluate ref cand).jaccard) := by
  simpa [evaluate, jaccard, dice] using
    jaccardOf_diceOf_props (tpCount ref.data cand.data)
      (fpCount ref.data cand.data) (fnCount ref.data cand.data)

/-- Witness for C2 at the concrete pair `gridA`, `gridB`. -/
theorem dice_jaccard_bounds_relation_witness :
    sameShape gridA gridB ∧
    (0 ≤ (evaluate gridA gridB).jaccard ∧ (evaluate gridA gridB).jaccard ≤ 1 ∧
     0 ≤ (evaluate gridA gridB).dice ∧ (evaluate gridA gridB).dice ≤ 1 ∧
     (evaluate gridA gridB).jaccard ≤ (evaluate gridA gridB).dice ∧
     (evaluate gridA gridB).dice =
       2 * (evaluate gridA gridB).jaccard / (1 + (evaluate gridA gridB).jaccard)) :=
  ⟨by decide, dice_jaccard_bounds_relation gridA gridB (by decide)⟩

/-- C3: whenever the candidate predicts at least one foreground voxel
(`TP+FP > 0`), `evaluate` returns false-positive error `FP/(TP+FP)` and
false-negative error `FN/(TP+FN)`. -/
theorem fp_fn_error_formulas (ref cand : VoxelGrid Bool)
    (h : 0 < tpCount ref.data cand.data + fpCount ref.data cand.data) :
    (evaluate ref cand).false_positive =
      (fpCount ref.data cand.data : ℚ) /
        ((tpCount ref.data cand.data : ℚ) + (fpCount ref.data cand.data : ℚ)) ∧
    (evaluate ref cand).false_negative =
      (fnCount ref.data cand.data : ℚ) /
        ((tpCount ref.data cand.data : ℚ) + (fnCount ref.data cand.data : ℚ)) := by
  constructor
  · simp only [evaluate, falsePositiveError, falsePositiveErrorOf]
    rw [if_neg (by omega)]
  · simp only [evaluate, falseNegativeError, falseNegativeErrorOf]
    rcases Nat.eq_zero_or_pos (tpCount ref.data cand.data + fnCount ref.data cand.data)
      with h0 | hpos
    · have htp : tpCount ref.data cand.data = 0 := by omega
      have hfn : fnCount ref.data cand.data = 0 := by omega
      rw [if_pos h0, htp, hfn]
      norm_num
    · rw [if_neg (by omega)]

/-- Witness for C3 at the concrete pair `gridA`, `gridB`. -/
theorem fp_fn_error_formulas_witness :
    0 < tpCount gridA.data gridB.data + fpCount gridA.data gridB.data ∧
    ((evaluate gridA gridB).false_positive =
      (fpCount gridA.data gridB.data : ℚ) /
        ((tpCount gridA.data gridB.data : ℚ) + (fpCount gridA.data gridB.data : ℚ)) ∧
     (evaluate gridA gridB).false_negative =
      (fnCount gridA.data gridB.data : ℚ) /
        ((tpCount gridA.data gridB.data : ℚ) + (fnCount gridA.data gridB.data : ℚ))) :=
  ⟨by decide, fp_fn_error_formulas gridA gridB (by decide)⟩

/-- C4: when both the reference and the candidate have empty foreground,
`evaluate` returns the documented degenerate value `1` for both Jaccard and
Dice (total rational arithmetic: no NaN and no division failure). -/
theorem empty_both_jaccard_dice_one (ref cand : VoxelGrid Bool)
    (h1 : foregroundCount ref = 0) (h2 : foregroundCount cand = 0) :
    (evaluate ref cand).jaccard = 1 ∧ (evaluate ref cand).dice = 1 := by
  have htp : tpCount ref.data cand.data = 0 :=
    Nat.le_zero.mp (h1 ▸ tpCount_le_count ref.data cand.data)
  have hfp : fpCount ref.data cand.data = 0 :=
    Nat.le_zero.mp (h2 ▸ fpCount_le_count ref.data cand.data)
  have hfn : fnCount ref.data cand.data = 0 :=
    Nat.le_zero.mp (h1 ▸ fnCount_le_count ref.data cand.data)
  simp [evaluate, jaccard, dice, jaccardOf, diceOf, htp, hfp, hfn]

/-- Witness for C4 at the concrete pair `gridEmpty`, `gridEmpty`. -/
theorem empty_both_jaccard_dice_one_witness :
    foregroundCount gridEmpty = 0 ∧
    ((evaluate gridEmpty gridEmpty).jaccard = 1 ∧
     (evaluate gridEmpty gridEmpty).dice = 1) :=
  ⟨by decide, empty_both_jaccard_dice_one gridEmpty gridEmpty (by decide) (by decide)⟩

/-- C7: for same-shape, same-spacing grids with non-empty union, the volume
similarity returned by `evaluate` equals
`2·(V_candidate − V_reference)/(V_candidate + V_reference)` and is
antisymmetric under swapping the two grids. -/
theorem volume_similarity_formula_antisym (ref cand : VoxelGrid Bool)
    (h1 : sameShape ref cand)
    (h2 : 0 < foregroundCount ref + foregroundCount cand) :
    (evaluate ref cand).volume_similarity =
      2 * (volume cand - volume ref) / (volume cand + volume ref) ∧
    (evaluate ref cand).volume_similarity =
      -(evaluate cand ref).volume_similarity := by
  simp only [evaluate, volumeSimilarity]
  by_cases h0 : volume ref + volume cand = 0
  · rw [if_pos h0, if_pos (by linarith)]
    have hsum : volume cand + volume ref = 0 := by linarith
    rw [hsum]
    norm_num
  · rw [if_neg h0, if_neg (fun hc => h0 (by linarith))]
    exact ⟨rfl, by ring⟩

/-- Witness for C7 at the concrete pair `gridA`, `gridB`. -/
theorem volume_similarity_formula_antisym_witness :
    sameShape gridA gridB ∧ 0 < foregroundCount gridA + foregroundCount gridB ∧
    ((evaluate gridA gridB).volume_similarity =
      2 * (volume gridB - volume gridA) / (volume gridB + volume gridA) ∧
     (evaluate gridA gridB).volume_similarity =
      -(evaluate gridB gridA).volume_similarity) :=
  ⟨by decide, by decide,
    volume_similarity_formula_antisym gridA gridB (by decide) (by decide)⟩

/-- C1: at every voxel of the consensus, `vote` assigns the label with
strictly the most votes among the rater columns, and whenever two or more
labels tie for the maximum count it assigns the caller-supplied undecided
label. -/
theorem majority_vote_strict_winner_tie (grids : List (List ℤ)) (u : ℤ)
    (v : ℕ) (hv : v < numVoxels grids) :
    (∀ l ∈ raterColumn grids v,
      (∀ l' ∈ raterColumn grids v, l' ≠ l →
        (raterColumn grids v).count l' < (raterColumn grids v).count l) →
      (vote grids u).getD v u = l) ∧
    (∀ l₁ ∈ raterColumn grids v, ∀ l₂ ∈ raterColumn grids v, l₁ ≠ l₂ →
      (raterColumn grids v).count l₁ = maxVotes (raterColumn grids v) →
      (raterColumn grids v).count l₂ = maxVotes (raterColumn grids v) →
      (vote grids u).getD v u = u) := by
  set col := raterColumn grids v with hcol
  rw [vote_getD grids u v hv]
  constructor
  · intro l hl hstrict
    have hmax := maxVotes_eq_of_strict col l hl hstrict
    have hwin : winners col = [l] := by
      refine filter_eq_single col.dedup _ l col.nodup_dedup
        (List.mem_dedup.mpr hl) ?_
      intro x hx
      have hxcol : x ∈ col := List.mem_dedup.mp hx
      constructor
      · intro hpx
        by_contra hne
        have hlt := hstrict x hxcol hne
        have : col.count x = maxVotes col := by simpa using hpx
        omega
      · intro hxe
        subst hxe
        simp [hmax]
    simp [voteVoxel, hwin]
  · intro l₁ h₁ l₂ h₂ hne hm₁ hm₂
    have hw₁ : l₁ ∈ winners col := mem_winners col l₁ h₁ hm₁
    have hw₂ : l₂ ∈ winners col := mem_winners col l₂ h₂ hm₂
    rcases hw : winners col with _ | ⟨x, _ | ⟨y, t⟩⟩
    · simp [voteVoxel, hw]
    · rw [hw] at hw₁ hw₂
      have e₁ : l₁ = x := by simpa using hw₁
      have e₂ : l₂ = x := by simpa using hw₂
      exact absurd (e₁.trans e₂.symm) hne
    · simp [voteVoxel, hw]

/-- Witness for C1: the strict winner `1` of the column `[1, 1, 2]` is
assigned, and the tied column `[1, 2]` receives the undecided label `10`. -/
theorem majority_vote_strict_winner_tie_witness :
    0 < numVoxels voteGrids ∧ 0 < numVoxels tieGrids ∧
    (vote voteGrids 10).getD 0 10 = 1 ∧ (vote tieGrids 10).getD 0 10 = 10 :=
  ⟨by decide, by decide,
    (majority_vote_strict_winner_tie voteGrids 10 0 (by decide)).1 1
      (by decide) (by decide),
    (majority_vote_strict_winner_tie tieGrids 10 0 (by decide)).2 1
      (by decide) 2 (by decide) (by decide) (by decide) (by decide)⟩

/-- C10: the binary STAPLE reference is obtained by a strict `>` against
the 0.95 threshold: a voxel is foreground iff its probability strictly
exceeds `threshold`, so a probability exactly equal to the threshold is
classified as background. -/
theorem staple_threshold_strict (probs : List ℚ) (i : ℕ)
    (h : i < probs.length) :
    ((gtThreshold probs threshold).getD i false = true ↔
      threshold < probs.getD i 0) ∧
    (probs.getD i 0 = threshold → (gtThreshold probs threshold).getD i false = false) := by
  have hlen : i < (gtThreshold probs threshold).length := by
    simpa [gtThreshold] using h
  rw [List.getD_eq_getElem _ _ hlen, List.getD_eq_getElem _ _ h]
  constructor
  · simp [gtThreshold]
  · intro heq
    simp only [gtThreshold, List.getElem_map]
    rw [heq]
    simp

/-- Witness for C10: in `probsAtThreshold` the voxel holding exactly 0.95
is classified background, and the classification is the strict comparison. -/
theorem staple_threshold_strict_witness :
    1 < probsAtThreshold.length ∧
    ((gtThreshold probsAtThreshold threshold).getD 1 false = true ↔
      threshold < probsAtThreshold.getD 1 0) ∧
    (probsAtThreshold.getD 1 0 = threshold →
      (gtThreshold probsAtThreshold threshold).getD 1 false = false) :=
  ⟨by decide, staple_threshold_strict probsAtThreshold 1 (by decide)⟩

end SegEval

namespace SegEval

/-! ## Shape-mismatch lemmas -/

lemma sameShape_symm {α β : Type} {a : VoxelGrid α} {b : VoxelGrid β}
    (h : sameShape a b) : sameShape b a :=
  ⟨h.1.symm, h.2.symm⟩

lemma sameShape_trans {α β γ : Type} {a : VoxelGrid α} {b : VoxelGrid β}
    {c : VoxelGrid γ} (h1 : sameShape a b) (h2 : sameShape b c) :
    sameShape a c :=
  ⟨h1.1.trans h2.1, h1.2.trans h2.2⟩

lemma sameShapeAll_spec {α : Type} (grids : List (VoxelGrid α))
    (h : sameShapeAll grids = true) :
    ∀ g₁ ∈ grids, ∀ g₂ ∈ grids, sameShape g₁ g₂ := by
  cases grids with
  | nil => intro g₁ h₁; cases h₁
  | cons g rest =>
    have hall := List.all_eq_true.mp h
    intro g₁ h₁ g₂ h₂
    have key : ∀ x ∈ g :: rest, sameShape x g := by
      intro x hx
      rcases List.mem_cons.mp hx with rfl | hx
      · exact ⟨rfl, rfl⟩
      · simpa using hall x hx
    exact sameShape_trans (key g₁ h₁) (sameShape_symm (key g₂ h₂))

lemma sameShapeAll_false {α : Type} (grids : List (VoxelGrid α))
    (h : ∃ g₁ ∈ grids, ∃ g₂ ∈ grids, ¬ sameShape g₁ g₂) :
    sameShapeAll grids = false := by
  rcases h with ⟨g₁, h₁, g₂, h₂, hne⟩
  rcases Bool.eq_false_or_eq_true (sameShapeAll grids) with h | h
  · exact absurd (sameShapeAll_spec grids h g₁ h₁ g₂ h₂) hne
  · exact h

/-- C8: when a rater set's members do not all share identical size and
spacing, each fusion or comparison operation fails with a ShapeMismatch
error — an `Except.error`, so no partial result exists. -/
theorem shape_mismatch_fails (grids : List (VoxelGrid ℤ)) (u fg : ℤ)
    (maxIterations : ℕ) (tol : ℚ) (ref cand : VoxelGrid Bool)
    (h : ∃ g₁ ∈ grids, ∃ g₂ ∈ grids, ¬ sameShape g₁ g₂)
    (hrc : ¬ sameShape ref cand) :
    checkedVote grids u = .error .ShapeMismatch ∧
    checkedStaple grids fg maxIterations tol = .error .ShapeMismatch ∧
    checkedEvaluate ref cand = .error .ShapeMismatch := by
  have hfalse := sameShapeAll_false grids h
  refine ⟨?_, ?_, ?_⟩
  · simp [checkedVote, hfalse]
  · simp [checkedStaple, hfalse]
  · simp [checkedEvaluate, hrc]

/-- Witness for C8 at the concrete mismatched set and pair. -/
theorem shape_mismatch_fails_witness :
    (∃ g₁ ∈ mismatchSet, ∃ g₂ ∈ mismatchSet, ¬ sameShape g₁ g₂) ∧
    (checkedVote mismatchSet 10 = .error .ShapeMismatch ∧
     checkedStaple mismatchSet 1 5 0 = .error .ShapeMismatch ∧
     checkedEvaluate gridA gridEmpty = .error .ShapeMismatch) :=
  ⟨by decide,
    shape_mismatch_fails mismatchSet 10 1 5 0 gridA gridEmpty
      (by decide) (by decide)⟩

/-! ## Fold-min/fold-max lemmas -/

lemma foldMin_le_init {α : Type} [LinearOrder α] (l : List α) (i : α) :
    foldMin l i ≤ i := by
  induction l generalizing i with
  | nil => exact le_refl i
  | cons x xs ih =>
    exact le_trans (ih (min i x)) (min_le_left i x)

lemma foldMin_le_mem {α : Type} [LinearOrder α] (l : List α) (i x : α)
    (hx : x ∈ l) : foldMin l i ≤ x := by
  induction l generalizing i with
  | nil => cases hx
  | cons a xs ih =>
    rcases List.mem_cons.mp hx with rfl | hx
    · exact le_trans (foldMin_le_init xs (min i x)) (min_le_right i x)
    · exact ih (min i a) hx

lemma le_foldMin {α : Type} [LinearOrder α] (l : List α) (i c : α)
    (hi : c ≤ i) (h : ∀ x ∈ l, c ≤ x) : c ≤ foldMin l i := by
  induction l generalizing i with
  | nil => exact hi
  | cons a xs ih =>
    exact ih (min i a) (le_min hi (h a (List.mem_cons_self a xs)))
      (fun x hx => h x (List.mem_cons_of_mem a hx))

lemma init_le_foldMax {α : Type} [LinearOrder α] (l : List α) (i : α) :
    i ≤ foldMax l i := by
  induction l generalizing i with
  | nil => exact le_refl i
  | cons x xs ih =>
    exact le_trans (le_max_left i x) (ih (max i x))

lemma mem_le_foldMax {α : Type} [LinearOrder α] (l : List α) (i x : α)
    (hx : x ∈ l) : x ≤ foldMax l i := by
  induction l generalizing i with
  | nil => cases hx
  | cons a xs ih =>
    rcases List.mem_cons.mp hx with rfl | hx
    · exact le_trans (le_max_right i x) (init_le_foldMax xs (max i x))
    · exact ih (max i a) hx

lemma foldMax_le {α : Type} [LinearOrder α] (l : List α) (i c : α)
    (hi : i ≤ c) (h : ∀ x ∈ l, x ≤ c) : foldMax l i ≤ c := by
  induction l generalizing i with
  | nil => exact hi
  | cons a xs ih =>
    exact ih (max i a) (max_le hi (h a (List.mem_cons_self a xs)))
      (fun x hx => h x (List.mem_cons_of_mem a hx))

lemma foldMax_eq_init_or_mem {α : Type} [LinearOrder α] (l : List α)
    (i : α) : foldMax l i = i ∨ foldMax l i ∈ l := by
  induction l generalizing i with
  | nil => exact Or.inl rfl
  | cons a xs ih =>
    rcases ih (max i a) with h | h
    · rcases max_choice i a with hm | hm
      · exact Or.inl (by rw [show foldMax (a :: xs) i = foldMax xs (max i a) from rfl, h, hm])
      · refine Or.inr ?_
        rw [show foldMax (a :: xs) i = foldMax xs (max i a) from rfl, h, hm]
        exact List.mem_cons_self a xs
    · exact Or.inr (List.mem_cons_of_mem a h)

lemma minOr_le_mem {α : Type} [LinearOrder α] (d : α) (l : List α) (x : α)
    (hx : x ∈ l) : minOr d l ≤ x := by
  cases l with
  | nil => cases hx
  | cons y ys =>
    rcases List.mem_cons.mp hx with rfl | hx
    · exact foldMin_le_init ys x
    · exact foldMin_le_mem ys y x hx

lemma le_minOr {α : Type} [LinearOrder α] (d : α) (l : List α) (c : α)
    (hd : c ≤ d) (h : ∀ x ∈ l, c ≤ x) : c ≤ minOr d l := by
  cases l with
  | nil => exact hd
  | cons y ys =>
    exact le_foldMin ys y c (h y (List.mem_cons_self y ys))
      (fun x hx => h x (List.mem_cons_of_mem y hx))

lemma mem_le_maxOr {α : Type} [LinearOrder α] (d : α) (l : List α) (x : α)
    (hx : x ∈ l) : x ≤ maxOr d l := by
  cases l with
  | nil => cases hx
  | cons y ys =>
    rcases List.mem_cons.mp hx with rfl | hx
    · exact init_le_foldMax ys x
    · exact mem_le_foldMax ys y x hx

lemma maxOr_le {α : Type} [LinearOrder α] (d : α) (l : List α) (c : α)
    (hd : d ≤ c) (h : ∀ x ∈ l, x ≤ c) : maxOr d l ≤ c := by
  cases l with
  | nil => exact hd
  | cons y ys =>
    exact foldMax_le ys y c (h y (List.mem_cons_self y ys))
      (fun x hx => h x (List.mem_cons_of_mem y hx))

lemma maxOr_eq_d_or_mem {α : Type} [LinearOrder α] (d : α) (l : List α) :
    maxOr d l = d ∨ maxOr d l ∈ l := by
  cases l with
  | nil => exact Or.inl rfl
  | cons y ys =>
    rcases foldMax_eq_init_or_mem ys y with h | h
    · exact Or.inr (by rw [show maxOr d (y :: ys) = foldMax ys y from rfl, h]; exact List.mem_cons_self y ys)
    · exact Or.inr (List.mem_cons_of_mem y h)

lemma maxOr_eq_of_all_eq {α : Type} [LinearOrder α] (d : α) (l : List α)
    (h : ∀ x ∈ l, x = d) : maxOr d l = d := by
  refine le_antisymm (maxOr_le d l d (le_refl d) (fun x hx => le_of_eq (h x hx))) ?_
  cases l with
  | nil => exact le_refl d
  | cons y ys =>
    have hy := h y (List.mem_cons_self y ys)
    calc d = y := hy.symm
    _ ≤ foldMax ys y := init_le_foldMax ys y

/-! ## Self-comparison lemmas -/

lemma zip_self {α : Type} (l : List α) :
    l.zip l = l.map (fun a => (a, a)) := by
  induction l with
  | nil => rfl
  | cons a t ih => simp [List.zip_cons_cons, ih]

lemma tpCount_self (d : List Bool) : tpCount d d = d.count true := by
  unfold tpCount
  rw [zip_self, List.countP_map]
  rw [List.count_eq_countP]
  refine List.countP_congr ?_
  intro b hb
  cases b <;> simp

lemma fpCount_self (d : List Bool) : fpCount d d = 0 := by
  unfold fpCount
  rw [zip_self, List.countP_map]
  refine List.countP_eq_zero.mpr ?_
  intro b hb
  cases b <;> simp

lemma fnCount_self (d : List Bool) : fnCount d d = 0 := by
  unfold fnCount
  rw [zip_self, List.countP_map]
  refine List.countP_eq_zero.mpr ?_
  intro b hb
  cases b <;> simp

lemma realDist_self {α : Type} (a : VoxelGrid α) (v : ℕ) :
    realDist a a v v = 0 := by
  unfold realDist
  have : sqDist (posOf a v) (posOf a v) = 0 := by
    simp [sqDist]
  rw [this]
  simp

lemma directedHausdorff_self (a : VoxelGrid Bool) :
    directedHausdorff a a = 0 := by
  unfold directedHausdorff
  refine maxOr_eq_of_all_eq 0 _ ?_
  intro x hx
  rcases List.mem_map.mp hx with ⟨v, hv, rfl⟩
  refine le_antisymm ?_ ?_
  · refine minOr_le_mem 0 _ 0 ?_ |>.trans (le_refl 0)
    exact List.mem_map.mpr ⟨v, hv, realDist_self a v⟩
  · refine le_minOr 0 _ 0 (le_refl 0) ?_
    intro x hx
    rcases List.mem_map.mp hx with ⟨w, hw, rfl⟩
    exact Real.sqrt_nonneg _

/-- C6: comparing a non-empty binary grid against itself yields Dice 1,
Jaccard 1 and Hausdorff distance 0. -/
theorem self_comparison_perfect (A : VoxelGrid Bool)
    (h : 0 < foregroundCount A) :
    (evaluate A A).dice = 1 ∧ (evaluate A A).jaccard = 1 ∧
    hausdorffDistance A A = 0 := by
  have ht : tpCount A.data A.data = A.data.count true := tpCount_self A.data
  have hfp := fpCount_self A.data
  have hfn := fnCount_self A.data
  have htpos : tpCount A.data A.data ≠ 0 := by
    rw [ht]
    exact Nat.pos_iff_ne_zero.mp h
  refine ⟨?_, ?_, ?_⟩
  · simp only [evaluate, dice, diceOf, hfp, hfn]
    rw [if_neg (by omega)]
    have hcast : (2 : ℚ) * (tpCount A.data A.data : ℚ) ≠ 0 := by
      have : (tpCount A.data A.data : ℚ) ≠ 0 := Nat.cast_ne_zero.mpr htpos
      positivity
    field_simp
  · simp only [evaluate, jaccard, jaccardOf, hfp, hfn]
    rw [if_neg (by omega)]
    have : (tpCount A.data A.data : ℚ) ≠ 0 := Nat.cast_ne_zero.mpr htpos
    field_simp
  · unfold hausdorffDistance
    rw [directedHausdorff_self]
    simp

/-- Witness for C6 at the concrete grid `gridA`. -/
theorem self_comparison_perfect_witness :
    0 < foregroundCount gridA ∧
    ((evaluate gridA gridA).dice = 1 ∧ (evaluate gridA gridA).jaccard = 1 ∧
     hausdorffDistance gridA gridA = 0) :=
  ⟨by decide, self_comparison_perfect gridA (by decide)⟩

/-! ## Surface-distance statistics lemmas -/

lemma maxOr_mem {α : Type} [LinearOrder α] (d : α) (l : List α)
    (h : l ≠ []) : maxOr d l ∈ l := by
  cases l with
  | nil => exact absurd rfl h
  | cons y ys =>
    rcases foldMax_eq_init_or_mem ys y with hm | hm
    · rw [show maxOr d (y :: ys) = foldMax ys y from rfl, hm]
      exact List.mem_cons_self y ys
    · exact List.mem_cons_of_mem y hm

lemma insertionSort_eq_multiset_sort (l : List ℝ) :
    l.insertionSort (· ≤ ·) = Multiset.sort (· ≤ ·) (↑l : Multiset ℝ) := by
  refine List.eq_of_perm_of_sorted ?_ (List.sorted_insertionSort _ l)
    (Multiset.sort_sorted _ _)
  refine (List.perm_insertionSort _ l).trans ?_
  have hcoe : ((Multiset.sort (· ≤ ·) (↑l : Multiset ℝ) : List ℝ) : Multiset ℝ)
      = (↑l : Multiset ℝ) := Multiset.sort_eq _ _
  exact (Multiset.coe_eq_coe.mp hcoe).symm

lemma sum_sq_dev (l : List ℝ) (m : ℝ) :
    (l.map (fun x => (x - m) ^ 2)).sum =
      (l.map (fun x => x ^ 2)).sum - 2 * m * l.sum + l.length * m ^ 2 := by
  induction l with
  | nil => simp
  | cons a t ih =>
    simp only [List.map_cons, List.sum_cons, List.length_cons, ih]
    push_cast
    ring

/-- C9: for a candidate with non-empty boundary, the evaluator's mean,
median, standard deviation and maximum equal the corresponding statistics
of the multiset obtained by sampling the absolute-value Euclidean distance
map of the reference at every boundary voxel of the candidate; the
distance map is the absolute value of the signed map, i.e. the unsigned
physical distance to the nearest opposite-class voxel. -/
theorem surface_distance_stats (ref cand : VoxelGrid Bool)
    (h : boundaryIndices cand ≠ []) :
    (surfaceDistanceEval ref cand).mean =
      multisetMean (↑(surfaceSamples ref cand)) ∧
    (surfaceDistanceEval ref cand).median =
      multisetMedian (↑(surfaceSamples ref cand)) ∧
    (surfaceDistanceEval ref cand).std =
      multisetStd (↑(surfaceSamples ref cand)) ∧
    ((surfaceDistanceEval ref cand).maxv ∈ surfaceSamples ref cand ∧
     ∀ x ∈ surfaceSamples ref cand, x ≤ (surfaceDistanceEval ref cand).maxv) ∧
    (∀ v, referenceDistanceMap ref v = Real.sqrt ((minOppSq ref v : ℚ) : ℝ)) := by
  have hlenb : (surfaceSamples ref cand).length = (boundaryIndices cand).length := by
    simp [surfaceSamples]
  have hne : surfaceSamples ref cand ≠ [] := by
    intro hmap
    apply h
    have h0 : (boundaryIndices cand).length = 0 := by
      rw [← hlenb, hmap]
      rfl
    exact List.length_eq_zero.mp h0
  have hlpos : 0 < (surfaceSamples ref cand).length := List.length_pos.mpr hne
  have hlr : ((surfaceSamples ref cand).length : ℝ) ≠ 0 := by
    exact_mod_cast hlpos.ne'
  refine ⟨?_, ?_, ?_, ⟨?_, ?_⟩, ?_⟩
  · simp [surfaceDistanceEval, multisetMean, Multiset.coe_card]
  · simp only [surfaceDistanceEval, multisetMedian, Multiset.coe_card]
    rw [insertionSort_eq_multiset_sort]
  · simp only [surfaceDistanceEval, multisetStd, multisetVariance, multisetMean,
      Multiset.map_coe, Multiset.coe_card]
    congr 1
    rw [show ((↑(surfaceSamples ref cand) : Multiset ℝ)).sum
        = (surfaceSamples ref cand).sum from rfl]
    rw [show ((surfaceSamples ref cand).map
        (fun x => (x - (surfaceSamples ref cand).sum /
          ((surfaceSamples ref cand).length : ℝ)) ^ 2) : Multiset ℝ).sum
        = ((surfaceSamples ref cand).map
        (fun x => (x - (surfaceSamples ref cand).sum /
          ((surfaceSamples ref cand).length : ℝ)) ^ 2)).sum from rfl]
    rw [sum_sq_dev]
    field_simp
    ring
  · exact maxOr_mem 0 _ hne
  · intro x hx
    exact mem_le_maxOr 0 _ x hx
  · intro v
    unfold referenceDistanceMap signedMaurer
    by_cases hb : ref.data.getD v false
    · rw [if_pos hb, neg_one_mul, abs_neg, abs_of_nonneg (Real.sqrt_nonneg _)]
    · rw [if_neg hb, one_mul, abs_of_nonneg (Real.sqrt_nonneg _)]

/-! ## STAPLE round-trip lemmas

When all raters are identical the whole EM state collapses: all
sensitivities share one value `pv`, all specificities one value `qv`, and
the posterior takes only the two values `wFG pv qv n` (on foreground
voxels) and `wBG pv qv n` (on background voxels). -/

lemma zip_replicate {α β : Type} (n : ℕ) (a : α) (b : β) :
    (List.replicate n a).zip (List.replicate n b) = List.replicate n (a, b) := by
  induction n with
  | zero => rfl
  | succ m ih => simp [List.replicate_succ, ih]

lemma voxelPosterior_replicate (b : Bool) (pv qv : ℚ) (n : ℕ) :
    voxelPosterior (List.replicate n b) (List.replicate n pv)
      (List.replicate n qv) = if b then wFG pv qv n else wBG pv qv n := by
  unfold voxelPosterior wFG wBG
  rw [zip_replicate, zip_replicate, List.map_replicate, List.map_replicate,
    List.prod_replicate, List.prod_replicate]
  cases b <;> simp

lemma range_map_getD {α β : Type} (l : List α) (d : α) (f : α → β) :
    (List.range l.length).map (fun v => f (l.getD v d)) = l.map f := by
  apply List.ext_getElem
  · simp
  · intro i h1 h2
    have hi : i < l.length := by simpa using h2
    simp only [List.getElem_map, List.getElem_range]
    rw [List.getD_eq_getElem l d hi]

lemma eStep_replicate (gb : List Bool) (n : ℕ) (hn : 0 < n) (pv qv : ℚ) :
    eStep (List.replicate n gb) (List.replicate n pv) (List.replicate n qv)
      = gb.map (fun b => if b then wFG pv qv n else wBG pv qv n) := by
  unfold eStep numVoxelsB boolColumn
  have hhead : (List.replicate n gb).headD [] = gb := by
    cases n with
    | zero => omega
    | succ m => rfl
  rw [hhead]
  simp only [List.map_replicate]
  have hpt : ∀ v : ℕ,
      voxelPosterior (List.replicate n (gb.getD v false))
        (List.replicate n pv) (List.replicate n qv)
      = (fun b => if b then wFG pv qv n else wBG pv qv n) (gb.getD v false) :=
    fun v => voxelPosterior_replicate (gb.getD v false) pv qv n
  simp only [hpt]
  exact range_map_getD gb false (fun b => if b then wFG pv qv n else wBG pv qv n)

lemma sum_map_ite (l : List Bool) (x y : ℚ) :
    (l.map (fun b => if b then x else y)).sum =
      (l.count true : ℚ) * x + (l.count false : ℚ) * y := by
  induction l with
  | nil => simp
  | cons a t ih =>
    cases a <;> simp [List.count_cons, ih] <;> push_cast <;> ring

lemma zip_map_self {α β γ : Type} (l : List α) (f : α → β) (h : α × β → γ) :
    (l.zip (l.map f)).map h = l.map (fun a => h (a, f a)) := by
  induction l with
  | nil => rfl
  | cons a t ih => simp [List.zip_cons_cons, ih]

lemma updateP_eval (gb : List Bool) (w1 w0 : ℚ) :
    updateP gb (gb.map (fun b => if b then w1 else w0)) =
      ((gb.count true : ℚ) * w1) /
        ((gb.count true : ℚ) * w1 + (gb.count false : ℚ) * w0) := by
  unfold updateP
  rw [zip_map_self, sum_map_ite]
  have hnum : gb.map
      (fun a => if (a, if a then w1 else w0).1 then (a, if a then w1 else w0).2 else 0)
      = gb.map (fun b => if b then w1 else 0) := by
    refine List.map_congr_left ?_
    intro a _
    cases a <;> simp
  rw [hnum, sum_map_ite]
  norm_num

lemma updateQ_eval (gb : List Bool) (w1 w0 : ℚ) :
    updateQ gb (gb.map (fun b => if b then w1 else w0)) =
      ((gb.count false : ℚ) * (1 - w0)) /
        ((gb.count true : ℚ) * (1 - w1) + (gb.count false : ℚ) * (1 - w0)) := by
  unfold updateQ
  rw [zip_map_self]
  have hnum : gb.map
      (fun a => if (a, if a then w1 else w0).1 then 0 else 1 - (a, if a then w1 else w0).2)
      = gb.map (fun b => if b then 0 else 1 - w0) := by
    refine List.map_congr_left ?_
    intro a _
    cases a <;> simp
  have hden : (gb.map (fun b => if b then w1 else w0)).map (fun x => 1 - x)
      = gb.map (fun b => if b then 1 - w1 else 1 - w0) := by
    rw [List.map_map]
    refine List.map_congr_left ?_
    intro a _
    cases a <;> simp
  rw [hnum, hden, sum_map_ite, sum_map_ite]
  norm_num

lemma mStep_replicate (gb : List Bool) (n : ℕ) (w : List ℚ) :
    mStep (List.replicate n gb) w =
      (List.replicate n (clampProb (updateP gb w)),
       List.replicate n (clampProb (updateQ gb w))) := by
  unfold mStep
  rw [List.map_replicate, List.map_replicate]

lemma wFG_eq (pv qv : ℚ) (n : ℕ) :
    wFG pv qv n = pv ^ n / (pv ^ n + (1 - qv) ^ n) := by
  unfold wFG priorFG
  rw [show (1 : ℚ) - 1 / 2 = 1 / 2 by norm_num,
    show (1 : ℚ) / 2 * pv ^ n + 1 / 2 * (1 - qv) ^ n
      = 1 / 2 * (pv ^ n + (1 - qv) ^ n) by ring,
    mul_div_mul_left _ _ (by norm_num : (1 : ℚ) / 2 ≠ 0)]

lemma wBG_eq (pv qv : ℚ) (n : ℕ) :
    wBG pv qv n = (1 - pv) ^ n / ((1 - pv) ^ n + qv ^ n) := by
  unfold wBG priorFG
  rw [show (1 : ℚ) - 1 / 2 = 1 / 2 by norm_num,
    show (1 : ℚ) / 2 * (1 - pv) ^ n + 1 / 2 * qv ^ n
      = 1 / 2 * ((1 - pv) ^ n + qv ^ n) by ring,
    mul_div_mul_left _ _ (by norm_num : (1 : ℚ) / 2 ≠ 0)]

lemma half_lt_ratio (A B : ℚ) (hB : 0 < B) (hAB : B < A) :
    1 / 2 < A / (A + B) := by
  have hA : 0 < A := lt_trans hB hAB
  rw [div_lt_div_iff (by norm_num) (by linarith)]
  linarith

lemma ratio_lt_half (A B : ℚ) (hA : 0 < A) (hAB : A < B) :
    A / (A + B) < 1 / 2 := by
  rw [div_lt_div_iff (by linarith) (by norm_num)]
  linarith

lemma ratio_pos (A B : ℚ) (hA : 0 < A) (hB : 0 < B) : 0 < A / (A + B) :=
  div_pos hA (by linarith)

lemma ratio_lt_one (A B : ℚ) (hA : 0 < A) (hB : 0 < B) : A / (A + B) < 1 := by
  rw [div_lt_one (by linarith)]
  linarith

lemma w_bounds (pv qv : ℚ) (n : ℕ) (hn : 0 < n)
    (hp1 : epsSTAPLE ≤ pv) (hp2 : pv ≤ 1 - epsSTAPLE)
    (hq1 : epsSTAPLE ≤ qv) (hq2 : qv ≤ 1 - epsSTAPLE)
    (hsum : 1 < pv + qv) :
    1 / 2 < wFG pv qv n ∧ wFG pv qv n < 1 ∧ 0 < wFG pv qv n ∧
    0 < wBG pv qv n ∧ wBG pv qv n < 1 / 2 ∧ wBG pv qv n < 1 := by
  have heps : (0 : ℚ) < epsSTAPLE := by norm_num [epsSTAPLE]
  have h1q : (0 : ℚ) < 1 - qv := by
    have : epsSTAPLE ≤ 1 - qv := by linarith
    linarith
  have h1p : (0 : ℚ) < 1 - pv := by linarith
  have hp0 : (0 : ℚ) < pv := lt_of_lt_of_le heps hp1
  have hq0 : (0 : ℚ) < qv := lt_of_lt_of_le heps hq1
  have hlt1 : 1 - qv < pv := by linarith
  have hlt0 : 1 - pv < qv := by linarith
  have hpow1 : (1 - qv) ^ n < pv ^ n :=
    pow_lt_pow_left hlt1 (le_of_lt h1q) (Nat.pos_iff_ne_zero.mp hn)
  have hpow0 : (1 - pv) ^ n < qv ^ n :=
    pow_lt_pow_left hlt0 (le_of_lt h1p) (Nat.pos_iff_ne_zero.mp hn)
  have hApos : (0 : ℚ) < pv ^ n := pow_pos hp0 n
  have hBpos : (0 : ℚ) < (1 - qv) ^ n := pow_pos h1q n
  have hA0pos : (0 : ℚ) < (1 - pv) ^ n := pow_pos h1p n
  have hB0pos : (0 : ℚ) < qv ^ n := pow_pos hq0 n
  rw [wFG_eq, wBG_eq]
  exact ⟨half_lt_ratio _ _ hBpos hpow1, ratio_lt_one _ _ hApos hBpos,
    ratio_pos _ _ hApos hBpos, ratio_pos _ _ hA0pos hB0pos,
    ratio_lt_half _ _ hA0pos hpow0, ratio_lt_one _ _ hA0pos hB0pos⟩

lemma clampProb_le (x : ℚ) : clampProb x ≤ 1 - epsSTAPLE :=
  max_le (by norm_num [epsSTAPLE]) (min_le_left _ _)

lemma le_clampProb (x : ℚ) : epsSTAPLE ≤ clampProb x := le_max_left _ _

lemma gtThreshold_map_w (gb : List Bool) (w1 w0 : ℚ)
    (h1 : 1 / 2 < w1) (h0 : w0 ≤ 1 / 2) :
    gtThreshold (gb.map (fun b => if b then w1 else w0)) (1 / 2) = gb := by
  unfold gtThreshold
  rw [List.map_map]
  refine (List.map_congr_left ?_).trans (List.map_id gb)
  intro b hb
  cases b
  · simp only [Function.comp_apply, if_false, Bool.false_eq_true, id_eq,
      decide_eq_false_iff_not, not_lt]
    linarith
  · simp only [Function.comp_apply, if_true, id_eq, decide_eq_true_eq]
    linarith

lemma next_state (gb : List Bool) (n : ℕ) (hn : 0 < n) (pv qv : ℚ)
    (hV1 : 0 < (gb.count true : ℚ)) (hV0 : 0 < (gb.count false : ℚ))
    (hf1 : epsSTAPLE * ((gb.count true : ℚ) + (gb.count false : ℚ)) ≤
      (gb.count true : ℚ))
    (hf0 : epsSTAPLE * ((gb.count true : ℚ) + (gb.count false : ℚ)) ≤
      (gb.count false : ℚ))
    (hp1 : epsSTAPLE ≤ pv) (hp2 : pv ≤ 1 - epsSTAPLE)
    (hq1 : epsSTAPLE ≤ qv) (hq2 : qv ≤ 1 - epsSTAPLE)
    (hsum : 1 < pv + qv) (pv' qv' : ℚ)
    (hp' : pv' = clampProb (updateP gb
      (gb.map (fun b => if b then wFG pv qv n else wBG pv qv n))))
    (hq' : qv' = clampProb (updateQ gb
      (gb.map (fun b => if b then wFG pv qv n else wBG pv qv n)))) :
    epsSTAPLE ≤ pv' ∧ pv' ≤ 1 - epsSTAPLE ∧
    epsSTAPLE ≤ qv' ∧ qv' ≤ 1 - epsSTAPLE ∧ 1 < pv' + qv' := by
  obtain ⟨hW1h, hW1lt1, hW1pos, hW0pos, hW0h, hW0lt1⟩ :=
    w_bounds pv qv n hn hp1 hp2 hq1 hq2 hsum
  rw [updateP_eval] at hp'
  rw [updateQ_eval] at hq'
  set V1 := (gb.count true : ℚ) with hV1d
  set V0 := (gb.count false : ℚ) with hV0d
  set w1 := wFG pv qv n with hw1d
  set w0 := wBG pv qv n with hw0d
  have heps : (0 : ℚ) < epsSTAPLE := by norm_num [epsSTAPLE]
  have heps2 : epsSTAPLE < 1 - epsSTAPLE := by norm_num [epsSTAPLE]
  have hVV : (0 : ℚ) < V1 + V0 := by linarith
  have hden1 : (0 : ℚ) < V1 * w1 + V0 * w0 :=
    add_pos (mul_pos hV1 hW1pos) (mul_pos hV0 hW0pos)
  have hden2 : (0 : ℚ) < V1 * (1 - w1) + V0 * (1 - w0) :=
    add_pos (mul_pos hV1 (by linarith)) (mul_pos hV0 (by linarith))
  have hw01 : w0 < w1 := by linarith
  have hrawP : V1 / (V1 + V0) < V1 * w1 / (V1 * w1 + V0 * w0) := by
    rw [div_lt_div_iff hVV hden1]
    nlinarith [mul_pos hV1 hV0]
  have hrawQ : V0 / (V1 + V0) <
      V0 * (1 - w0) / (V1 * (1 - w1) + V0 * (1 - w0)) := by
    rw [div_lt_div_iff hVV hden2]
    nlinarith [mul_pos hV1 hV0]
  have hfrac1 : epsSTAPLE ≤ V1 / (V1 + V0) := by
    rw [le_div_iff hVV]
    linarith
  have hfrac0 : epsSTAPLE ≤ V0 / (V1 + V0) := by
    rw [le_div_iff hVV]
    linarith
  have hrawPe : epsSTAPLE < V1 * w1 / (V1 * w1 + V0 * w0) :=
    lt_of_le_of_lt hfrac1 hrawP
  have hrawQe : epsSTAPLE <
      V0 * (1 - w0) / (V1 * (1 - w1) + V0 * (1 - w0)) :=
    lt_of_le_of_lt hfrac0 hrawQ
  have hclampP : pv' = min (1 - epsSTAPLE) (V1 * w1 / (V1 * w1 + V0 * w0)) := by
    rw [hp']
    exact max_eq_right (le_min (le_of_lt heps2) (le_of_lt hrawPe))
  have hclampQ : qv' = min (1 - epsSTAPLE)
      (V0 * (1 - w0) / (V1 * (1 - w1) + V0 * (1 - w0))) := by
    rw [hq']
    exact max_eq_right (le_min (le_of_lt heps2) (le_of_lt hrawQe))
  have hone : V1 / (V1 + V0) + V0 / (V1 + V0) = 1 := by
    rw [div_add_div_same, div_self hVV.ne']
  refine ⟨hp' ▸ le_clampProb _, hp' ▸ clampProb_le _,
    hq' ▸ le_clampProb _, hq' ▸ clampProb_le _, ?_⟩
  rw [hclampP, hclampQ]
  rcases le_total (V1 * w1 / (V1 * w1 + V0 * w0)) (1 - epsSTAPLE) with hP | hP
  · rcases le_total (V0 * (1 - w0) / (V1 * (1 - w1) + V0 * (1 - w0)))
        (1 - epsSTAPLE) with hQ | hQ
    · rw [min_eq_right hP, min_eq_right hQ]
      linarith
    · rw [min_eq_right hP, min_eq_left hQ]
      linarith
  · rw [min_eq_left hP]
    have : epsSTAPLE < min (1 - epsSTAPLE)
        (V0 * (1 - w0) / (V1 * (1 - w1) + V0 * (1 - w0))) :=
      lt_min heps2 hrawQe
    linarith

lemma stapleLoop_correct (gb : List Bool) (n : ℕ) (hn : 0 < n) (tol : ℚ)
    (hV1 : 0 < (gb.count true : ℚ)) (hV0 : 0 < (gb.count false : ℚ))
    (hf1 : epsSTAPLE * ((gb.count true : ℚ) + (gb.count false : ℚ)) ≤
      (gb.count true : ℚ))
    (hf0 : epsSTAPLE * ((gb.count true : ℚ) + (gb.count false : ℚ)) ≤
      (gb.count false : ℚ)) :
    ∀ (fuel : ℕ) (pv qv : ℚ),
      epsSTAPLE ≤ pv → pv ≤ 1 - epsSTAPLE →
      epsSTAPLE ≤ qv → qv ≤ 1 - epsSTAPLE → 1 < pv + qv →
      gtThreshold (stapleLoop (List.replicate n gb) tol fuel
        (List.replicate n pv, List.replicate n qv)) (1 / 2) = gb := by
  intro fuel
  induction fuel with
  | zero =>
    intro pv qv hp1 hp2 hq1 hq2 hsum
    obtain ⟨hW1h, _, _, _, hW0h, _⟩ :=
      w_bounds pv qv n hn hp1 hp2 hq1 hq2 hsum
    show gtThreshold (eStep (List.replicate n gb)
      (List.replicate n pv) (List.replicate n qv)) (1 / 2) = gb
    rw [eStep_replicate gb n hn pv qv]
    exact gtThreshold_map_w gb _ _ hW1h (le_of_lt hW0h)
  | succ k ih =>
    intro pv qv hp1 hp2 hq1 hq2 hsum
    obtain ⟨hW1h, _, _, _, hW0h, _⟩ :=
      w_bounds pv qv n hn hp1 hp2 hq1 hq2 hsum
    simp only [stapleLoop, eStep_replicate gb n hn pv qv, mStep_replicate]
    by_cases hc : maxChange (List.replicate n pv) (List.replicate n qv)
        (List.replicate n (clampProb (updateP gb
          (gb.map (fun b => if b then wFG pv qv n else wBG pv qv n)))))
        (List.replicate n (clampProb (updateQ gb
          (gb.map (fun b => if b then wFG pv qv n else wBG pv qv n))))) < tol
    · rw [if_pos hc]
      exact gtThreshold_map_w gb _ _ hW1h (le_of_lt hW0h)
    · rw [if_neg hc]
      obtain ⟨h1, h2, h3, h4, h5⟩ :=
        next_state gb n hn pv qv hV1 hV0 hf1 hf0 hp1 hp2 hq1 hq2 hsum _ _
          rfl rfl
      exact ih _ _ h1 h2 h3 h4 h5

/-- C5 (amended): when all `n ≥ 2` raters carry the identical grid and the
common grid's foreground and background each occupy at least the clamp
fraction `ε = epsSTAPLE` of the voxels (in particular both classes are
non-empty), the STAPLE posterior grid thresholded at 0.5 equals the common
input grid exactly, for every iteration budget and tolerance. -/
theorem staple_roundtrip_identical (g : List ℤ) (fg : ℤ)
    (n maxIterations : ℕ) (tol : ℚ) (hn : 2 ≤ n)
    (hV1 : 0 < ((g.map (fun x => decide (x = fg))).count true : ℚ))
    (hV0 : 0 < ((g.map (fun x => decide (x = fg))).count false : ℚ))
    (hf1 : epsSTAPLE * (((g.map (fun x => decide (x = fg))).count true : ℚ) +
        ((g.map (fun x => decide (x = fg))).count false : ℚ)) ≤
      ((g.map (fun x => decide (x = fg))).count true : ℚ))
    (hf0 : epsSTAPLE * (((g.map (fun x => decide (x = fg))).count true : ℚ) +
        ((g.map (fun x => decide (x = fg))).count false : ℚ)) ≤
      ((g.map (fun x => decide (x = fg))).count false : ℚ)) :
    gtThreshold (estimate (List.replicate n g) fg maxIterations tol) (1 / 2)
      = g.map (fun x => decide (x = fg)) := by
  unfold estimate
  rw [List.map_replicate, List.length_replicate]
  exact stapleLoop_correct (g.map (fun x => decide (x = fg))) n (by omega)
    tol hV1 hV0 hf1 hf0 maxIterations initPQ initPQ
    (by norm_num [epsSTAPLE, initPQ]) (by norm_num [epsSTAPLE, initPQ])
    (by norm_num [epsSTAPLE, initPQ]) (by norm_num [epsSTAPLE, initPQ])
    (by norm_num [initPQ])

/-- Witness for C5 at the two-rater set carrying the common grid `[1, 0]`. -/
theorem staple_roundtrip_identical_witness :
    2 ≤ 2 ∧
    gtThreshold (estimate (List.replicate 2 [(1 : ℤ), 0]) foregroundValue 3 0)
        (1 / 2)
      = [(1 : ℤ), 0].map (fun x => decide (x = foregroundValue)) := by
  have h1 : ([(1 : ℤ), 0].map (fun x => decide (x = foregroundValue))).count true
      = 1 := by decide
  have h0 : ([(1 : ℤ), 0].map (fun x => decide (x = foregroundValue))).count false
      = 1 := by decide
  refine ⟨le_refl 2,
    staple_roundtrip_identical [(1 : ℤ), 0] foregroundValue 2 3 0
      (le_refl 2) ?_ ?_ ?_ ?_⟩ <;>
    simp only [h1, h0] <;> norm_num [epsSTAPLE]

lemma foldr_max_zero_nonneg (l : List ℚ) : 0 ≤ l.foldr max 0 := by
  induction l with
  | nil => exact le_refl 0
  | cons a t ih => exact le_trans ih (le_max_right a _)

lemma maxChange_nonneg (p q p' q' : List ℚ) : 0 ≤ maxChange p q p' q' := by
  unfold maxChange
  exact foldr_max_zero_nonneg _

lemma stapleLoop_step_ge_tol (grids : List (List Bool)) (tol : ℚ)
    (htol : tol ≤ 0) (k : ℕ) (pq : List ℚ × List ℚ) :
    stapleLoop grids tol (k + 1) pq =
      stapleLoop grids tol k (mStep grids (eStep grids pq.1 pq.2)) := by
  simp only [stapleLoop]
  rw [if_neg (not_lt.mpr (le_trans htol (maxChange_nonneg _ _ _ _)))]

lemma stapleLoop_zero (grids : List (List Bool)) (tol : ℚ)
    (pq : List ℚ × List ℚ) :
    stapleLoop grids tol 0 pq = eStep grids pq.1 pq.2 := rfl

lemma updateP_allFG (w1v w0v : ℚ) (hw : w1v ≠ 0) :
    clampProb (updateP [true]
      ([true].map (fun b => if b then w1v else w0v))) = 1 - epsSTAPLE := by
  have hup : updateP [true] ([true].map (fun b => if b then w1v else w0v)) = 1 := by
    simp [updateP]
    exact div_self hw
  rw [hup]
  unfold clampProb
  rw [min_eq_left (by norm_num [epsSTAPLE]), max_eq_right (by norm_num [epsSTAPLE])]

lemma updateQ_allFG (w1v w0v : ℚ) :
    clampProb (updateQ [true]
      ([true].map (fun b => if b then w1v else w0v))) = epsSTAPLE := by
  have hup : updateQ [true] ([true].map (fun b => if b then w1v else w0v)) = 0 := by
    simp [updateQ]
  rw [hup]
  unfold clampProb
  rw [min_eq_right (by norm_num [epsSTAPLE]), max_eq_left (by norm_num [epsSTAPLE])]

lemma wFG_degenerate : wFG (1 - epsSTAPLE) epsSTAPLE 2 = 1 / 2 := by
  rw [wFG_eq]
  norm_num [epsSTAPLE]

/-- Counterexample to C5 as stated: two raters identical on the
all-foreground one-voxel grid.  The specificity update degenerates
(`Σ (1−W)(1−D) = 0`), the clamp forces `p + q = 1`, every posterior becomes
exactly `1/2`, and the strict 0.5 threshold classifies the voxel as
background — the thresholded output differs from the common input grid. -/
theorem staple_roundtrip_counterexample :
    ¬ (gtThreshold (estimate (List.replicate 2 [(1 : ℤ)]) foregroundValue 2 0)
          (1 / 2)
        = [(1 : ℤ)].map (fun x => decide (x = foregroundValue))) := by
  have hbin : (List.replicate 2 [(1 : ℤ)]).map
      (fun g => g.map (fun x => decide (x = foregroundValue)))
      = List.replicate 2 [true] := by decide
  have hrhs : [(1 : ℤ)].map (fun x => decide (x = foregroundValue))
      = [true] := by decide
  have hwpos : 0 < wFG initPQ initPQ 2 :=
    (w_bounds initPQ initPQ 2 (by norm_num)
      (by norm_num [epsSTAPLE, initPQ]) (by norm_num [epsSTAPLE, initPQ])
      (by norm_num [epsSTAPLE, initPQ]) (by norm_num [epsSTAPLE, initPQ])
      (by norm_num [initPQ])).2.2.1
  have e0 : eStep (List.replicate 2 [true]) (List.replicate 2 initPQ)
      (List.replicate 2 initPQ)
      = [true].map (fun b => if b then wFG initPQ initPQ 2
          else wBG initPQ initPQ 2) :=
    eStep_replicate [true] 2 (by norm_num) initPQ initPQ
  have m1 : mStep (List.replicate 2 [true])
      ([true].map (fun b => if b then wFG initPQ initPQ 2
        else wBG initPQ initPQ 2))
      = (List.replicate 2 (1 - epsSTAPLE), List.replicate 2 epsSTAPLE) := by
    rw [mStep_replicate, updateP_allFG _ _ hwpos.ne', updateQ_allFG]
  have e1 : eStep (List.replicate 2 [true])
      (List.replicate 2 (1 - epsSTAPLE)) (List.replicate 2 epsSTAPLE)
      = [true].map (fun b => if b then wFG (1 - epsSTAPLE) epsSTAPLE 2
          else wBG (1 - epsSTAPLE) epsSTAPLE 2) :=
    eStep_replicate [true] 2 (by norm_num) (1 - epsSTAPLE) epsSTAPLE
  have m2 : mStep (List.replicate 2 [true])
      ([true].map (fun b => if b then wFG (1 - epsSTAPLE) epsSTAPLE 2
        else wBG (1 - epsSTAPLE) epsSTAPLE 2))
      = (List.replicate 2 (1 - epsSTAPLE), List.replicate 2 epsSTAPLE) := by
    rw [mStep_replicate,
      updateP_allFG _ _ (by rw [wFG_degenerate]; norm_num), updateQ_allFG]
  unfold estimate
  rw [hbin, hrhs]
  simp only [List.length_replicate]
  rw [stapleLoop_step_ge_tol _ _ (le_refl 0) 1 _]
  dsimp only
  rw [e0, m1]
  rw [stapleLoop_step_ge_tol _ _ (le_refl 0) 0 _]
  dsimp only
  rw [e1, m2, stapleLoop_zero]
  dsimp only
  rw [e1, wFG_degenerate]
  simp [gtThreshold]

/-- Witness for C9 at the concrete pair (`gridB` as reference, `gridA` as
candidate, whose boundary is the single voxel 0). -/
theorem surface_distance_stats_witness :
    boundaryIndices gridA ≠ [] ∧
    ((surfaceDistanceEval gridB gridA).mean =
      multisetMean (↑(surfaceSamples gridB gridA)) ∧
     (surfaceDistanceEval gridB gridA).median =
      multisetMedian (↑(surfaceSamples gridB gridA)) ∧
     (surfaceDistanceEval gridB gridA).std =
      multisetStd (↑(surfaceSamples gridB gridA)) ∧
     ((surfaceDistanceEval gridB gridA).maxv ∈ surfaceSamples gridB gridA ∧
      ∀ x ∈ surfaceSamples gridB gridA,
        x ≤ (surfaceDistanceEval gridB gridA).maxv) ∧
     (∀ v, referenceDistanceMap gridB v =
        Real.sqrt ((minOppSq gridB v : ℚ) : ℝ))) :=
  ⟨by decide, surface_distance_stats gridB gridA (by decide)⟩

end SegEval
